import Mathlib

/-! # webhook-email: a shallow embedding of `main.go`

Go strings are embedded as Lean `String`s.  Go compares strings by their bytes;
on UTF-8 text two strings have the same bytes exactly when they have the same
code points, and an ASCII text such as `"Bearer "` is a byte prefix exactly when
it is a code point prefix.

What the program reads from the outside (the process environment, the request,
the JSON decoder of the body, the SMTP relay, the clock) is passed in
explicitly; what it does to the outside (the response it writes, the SMTP dials
it performs) is returned.
-/

set_option autoImplicit false

namespace WebhookEmail

/-! ## Go library functions used by `main.go` -/

/-- Go `strings.HasPrefix(s, pre)`. -/
def stringsHasPrefix (s pre : String) : Bool :=
  pre.data.isPrefixOf s.data

/-- Go `strings.TrimPrefix(s, pre)`: `s` without the leading `pre`, or `s`
itself when it does not start with `pre`. -/
def stringsTrimPrefix (s pre : String) : String :=
  if stringsHasPrefix s pre then ⟨s.data.drop pre.data.length⟩ else s

/-- Go `http.Header`, a `map[string][]string`: a key that is absent maps to the
empty slice. -/
abbrev Header := String → List String

/-- Go `Header.Get(key)`: the first value of the key, `""` when there is none.
(`Get` canonicalises the key first; `"Authorization"`, the only key `main.go`
asks for, is already canonical.) -/
def Header.Get (h : Header) (key : String) : String :=
  match h key with
  | [] => ""
  | v :: _ => v

/-! ## Data model -/

/-- Go `type Config struct`. -/
structure Config where
  Port : String
  WebhookToken : String
  SMTPHost : String
  SMTPPort : Int
  SMTPUser : String
  SMTPPass : String
  EmailFrom : String

/-- The part of `*http.Request` that `main.go` reads. -/
structure Request where
  Method : String
  Header : Header
  Body : String

/-! ## `validateToken` -/

/-- Go `validateToken(r)`, with the global `config` passed in. -/
def validateToken (config : Config) (r : Request) : Bool :=
  let authHeader := r.Header.Get "Authorization"
  if authHeader = "" then
    false
  else
    let token :=
      if stringsHasPrefix authHeader "Bearer " then
        stringsTrimPrefix authHeader "Bearer "
      else
        authHeader
    decide (token = config.WebhookToken)

/-! ## Configuration: `getEnv`, `getEnvAsInt`, `loadConfig` -/

/-- Go `os.Getenv`: the value of a variable of the process environment, `""`
when it is unset. -/
abbrev Environ := String → String

/-- Go `getEnv(key, defaultValue)`. -/
def getEnv (env : Environ) (key defaultValue : String) : String :=
  let value := env key
  if value = "" then defaultValue else value

/-! ### `fmt.Sscanf(valueStr, "%d", &value)`

The scanner of package `fmt` reads runes from the input.  `Sscanf` sets
`nlIsSpace = false`, and the verb `%d` is scanned by `scanInt(verb, 64)` (an
`int` has 64 bits on the platforms the service is built for). -/

/-- Go `fmt`: the table `space` of `scan.go`. -/
def fmtSpace : List (Nat × Nat) :=
  [(0x0009, 0x000d), (0x0020, 0x0020), (0x0085, 0x0085), (0x00a0, 0x00a0),
   (0x1680, 0x1680), (0x2000, 0x200a), (0x2028, 0x2029), (0x202f, 0x202f),
   (0x205f, 0x205f), (0x3000, 0x3000)]

/-- The loop of Go `fmt.isSpace` over the ranges of the table. -/
def isSpaceLoop : List (Nat × Nat) → Nat → Bool
  | [], _ => false
  | rng :: rest, rx =>
    if rx < rng.1 then false
    else if rx ≤ rng.2 then true
    else isSpaceLoop rest rx

/-- Go `fmt.isSpace(r)`. -/
def isSpace (r : Char) : Bool :=
  if r.toNat ≥ 2 ^ 16 then false else isSpaceLoop fmtSpace r.toNat

/-- Go `strconv.ErrSyntax` and `strconv.ErrRange`. -/
inductive NumError where
  | ErrSyntax
  | ErrRange
  deriving DecidableEq, Repr

/-- What `fmt.Sscanf` reports when it fails. -/
inductive ScanError where
  | unexpectedNewline
  | eof
  | expectedInteger
  | parse (e : NumError)
  deriving DecidableEq, Repr

/-- Go `(*ss).SkipSpace` with `nlIsSpace = false`, on the runes still to be
read: the runes left after the leading space, or the error raised at a
newline. -/
def SkipSpace : List Char → Except ScanError (List Char)
  | [] => .ok []
  | r :: rest =>
    if r = '\r' ∧ rest.head? = some '\n' then SkipSpace rest
    else if r = '\n' then .error .unexpectedNewline
    else if !isSpace r then .ok (r :: rest)
    else SkipSpace rest

/-- Go `(*ss).accept(ok)`: reads one rune into the token buffer when it is
one of `ok`. Returns whether it did, the buffer and the remaining input. -/
def accept (ok : List Char) (buf input : List Char) : Bool × List Char × List Char :=
  match input with
  | [] => (false, buf, [])
  | r :: rest => if r ∈ ok then (true, buf ++ [r], rest) else (false, buf, r :: rest)

/-- The loop `for s.accept(digits) {}` of Go `(*ss).scanNumber`. -/
def acceptLoop (ok : List Char) : List Char → List Char → List Char × List Char
  | buf, [] => (buf, [])
  | buf, r :: rest => if r ∈ ok then acceptLoop ok (buf ++ [r]) rest else (buf, r :: rest)

/-- Go `(*ss).scanNumber(digits, false)`: the token (sign included, it is
already in the buffer) and the remaining input. -/
def scanNumber (digits buf input : List Char) : Except ScanError (List Char × List Char) :=
  match input with
  | [] => .error .eof
  | _ :: _ =>
    match accept digits buf input with
    | (false, _, _) => .error .expectedInteger
    | (true, buf1, rest) => .ok (acceptLoop digits buf1 rest)

/-- The digit loop of Go `strconv.ParseUint(s, 10, 64)`: `n` is a `uint64`. -/
def ParseUintLoop : List Char → Nat → Nat × Option NumError
  | [], n => (n, none)
  | c :: cs, n =>
    if '0' ≤ c ∧ c ≤ '9' then
      let d := c.toNat - '0'.toNat
      if n ≥ (2 ^ 64 - 1) / 10 + 1 then
        (2 ^ 64 - 1, some .ErrRange)
      else
        let n10 := (n * 10) % 2 ^ 64
        let n1 := (n10 + d) % 2 ^ 64
        if n1 < n10 ∨ n1 > 2 ^ 64 - 1 then (2 ^ 64 - 1, some .ErrRange)
        else ParseUintLoop cs n1
    else
      (0, some .ErrSyntax)

/-- Go `strconv.ParseUint(s, 10, 64)`. With the base given as 10 every rune
that is not a decimal digit is a syntax error. -/
def ParseUint (s : List Char) : Nat × Option NumError :=
  if s = [] then (0, some .ErrSyntax) else ParseUintLoop s 0

/-- Go `strconv.ParseInt(s, 10, 64)`. -/
def ParseInt (s : List Char) : Except NumError Int :=
  match s with
  | [] => .error .ErrSyntax
  | c :: cs =>
    let neg := decide (c = '-')
    let s1 := if c = '+' ∨ c = '-' then cs else c :: cs
    match ParseUint s1 with
    | (_, some .ErrSyntax) => .error .ErrSyntax
    | (un, _) =>
      let cutoff := 2 ^ 63
      if !neg ∧ un ≥ cutoff then .error .ErrRange
      else if neg ∧ un > cutoff then .error .ErrRange
      else .ok (if neg then -(un : Int) else (un : Int))

/-- Go `fmt`: `decimalDigits`, the digits `getBase` gives for the verb `%d`
(the underscore is a digit for the verb `%v` only). -/
def decimalDigits : List Char := ['0', '1', '2', '3', '4', '5', '6', '7', '8', '9']

/-- Go `fmt`: `hugeWid`, the number of runes a scan reads at most. -/
def hugeWid : Nat := 2 ^ 30

/-- Go `fmt.Sscanf(str, "%d", &value)`: the scanned integer, or the error.
Input after the number is left unread and is no error. -/
def SscanfInt (str : String) : Except ScanError Int :=
  match SkipSpace (str.data.take hugeWid) with
  | .error e => .error e
  | .ok [] => .error .eof
  | .ok input =>
    let (_, buf, rest) := accept ['+', '-'] [] input
    match scanNumber decimalDigits buf rest with
    | .error e => .error e
    | .ok (tok, _) =>
      match ParseInt tok with
      | .error e => .error (.parse e)
      | .ok i => .ok i

/-- Go `getEnvAsInt(key, defaultValue)`. -/
def getEnvAsInt (env : Environ) (key : String) (defaultValue : Int) : Int :=
  let valueStr := env key
  if valueStr = "" then
    defaultValue
  else
    match SscanfInt valueStr with
    | .error _ => defaultValue
    | .ok value => value

/-- Go `loadConfig()`: the configuration it stores in the global `config`, and
the error it returns. The environment is the one `godotenv.Load()` leaves. -/
def loadConfig (env : Environ) : Config × Option String :=
  let config : Config :=
    { Port := getEnv env "PORT" "8080"
      WebhookToken := getEnv env "WEBHOOK_TOKEN" ""
      SMTPHost := getEnv env "SMTP_HOST" ""
      SMTPPort := getEnvAsInt env "SMTP_PORT" 587
      SMTPUser := getEnv env "SMTP_USER" ""
      SMTPPass := getEnv env "SMTP_PASS" ""
      EmailFrom := getEnv env "EMAIL_FROM" "" }
  if config.WebhookToken = "" then
    (config, some "必须设置WEBHOOK_TOKEN")
  else if config.SMTPHost = "" ∨ config.SMTPUser = "" ∨ config.SMTPPass = "" then
    (config, some "必须设置SMTP相关配置")
  else if config.EmailFrom = "" then
    (config, some "必须设置默认发件人邮箱")
  else
    (config, none)

/-! ## The request payload -/

/-- JSON values, as `encoding/json` reads and writes them. An object lists its
members in the order the encoder emits them (sorted by key for a Go map). -/
inductive JSON where
  | null
  | bool (b : Bool)
  | num (n : Int)
  | str (s : String)
  | arr (items : List JSON)
  | obj (members : List (String × JSON))

/-- The member `key` of a JSON object. -/
def JSON.member (v : JSON) (key : String) : Option JSON :=
  match v with
  | .obj members => members.lookup key
  | _ => none

/-- Go `map[string]ν`: its entries, in the order a `range` loop over the map
visits them (the order is not specified by Go; every order is a value of this
type). The keys of a map are pairwise distinct. -/
structure GoMap (ν : Type) where
  entries : List (String × ν)
  nodup : (entries.map Prod.fst).Nodup

/-- The `nil` map. -/
def GoMap.empty {ν : Type} : GoMap ν := ⟨[], List.nodup_nil⟩

/-- Go `type Attachment struct`. -/
structure Attachment where
  Filename : String
  Content : String

/-- Go `type EmailPayload struct`; a field absent from the JSON body keeps its
zero value. -/
structure EmailPayload where
  To : List String := []
  Cc : List String := []
  Bcc : List String := []
  Subject : String := ""
  Body : String := ""
  IsHtml : Bool := false
  Attachments : List Attachment := []
  Headers : GoMap String := GoMap.empty
  Metadata : GoMap JSON := GoMap.empty

/-! ## The header encoder of `gomail`: `mime.QEncoding.Encode("UTF-8", s)`

`gomail.NewMessage()` makes a message with the charset `"UTF-8"` and the
quoted-printable header encoder, and `SetHeader` passes every value through
`m.encodeString`, that is `mime.QEncoding.Encode(m.charset, value)`, before it
stores it. The encoder works on the bytes of the string. -/

/-- The UTF-8 bytes of a rune, the bytes a Go string holds for it. -/
def utf8Bytes (c : Char) : List Nat :=
  let n := c.toNat
  if n < 0x80 then [n]
  else if n < 0x800 then [0xC0 + n / 64, 0x80 + n % 64]
  else if n < 0x10000 then [0xE0 + n / 4096, 0x80 + n / 64 % 64, 0x80 + n % 64]
  else [0xF0 + n / 262144, 0x80 + n / 4096 % 64, 0x80 + n / 64 % 64, 0x80 + n % 64]

/-- Go `mime.needsEncoding(s)`: some rune of `s` is neither printable ASCII
nor a tab. -/
def needsEncoding (s : String) : Bool :=
  s.data.any (fun b => decide ((b < ' ' ∨ b > '~') ∧ b ≠ '\t'))

/-- Go `mime`: `upperhex[i]`. -/
def upperhex (i : Nat) : Char :=
  "0123456789ABCDEF".data.getD i '0'

/-- Go `mime.writeQString`, for one byte `b`. -/
def writeQByte (b : Nat) : List Char :=
  if b = ' '.toNat then ['_']
  else if '!'.toNat ≤ b ∧ b ≤ '~'.toNat ∧ b ≠ '='.toNat ∧ b ≠ '?'.toNat ∧ b ≠ '_'.toNat then
    [Char.ofNat b]
  else ['=', upperhex (b / 16), upperhex (b % 16)]

/-- Go `mime.writeQString(buf, s)`: what it appends for the bytes `s`. -/
def writeQString (s : List Nat) : List Char :=
  (s.map writeQByte).flatten

/-- Go `mime`: `maxContentLen`, the room for content in an encoded word of at
most 75 characters. -/
def maxContentLen : Nat := 75 - "=?UTF-8?q?".length - "?=".length

/-- The loop of Go `WordEncoder.qEncode` for the charset UTF-8, rune by rune:
`buf` is the text written so far and `currentLen` the content length of the
encoded word being written; a word that would grow over `maxContentLen` is
closed and a new one opened (`splitWord`). -/
def qEncodeLoop : List Char → Nat → List Char → List Char
  | [], _, buf => buf
  | c :: rest, currentLen, buf =>
    let encLen :=
      if ' ' ≤ c ∧ c ≤ '~' ∧ c ≠ '=' ∧ c ≠ '?' ∧ c ≠ '_' then 1
      else 3 * (utf8Bytes c).length
    if currentLen + encLen > maxContentLen then
      qEncodeLoop rest encLen
        (buf ++ "?=".data ++ [' '] ++ "=?UTF-8?q?".data ++ writeQString (utf8Bytes c))
    else
      qEncodeLoop rest (currentLen + encLen) (buf ++ writeQString (utf8Bytes c))

/-- Go `mime.QEncoding.encodeWord("UTF-8", s)`. -/
def encodeWord (s : String) : String :=
  ⟨qEncodeLoop s.data 0 "=?UTF-8?q?".data ++ "?=".data⟩

/-- Go `m.encodeString(value)` of a new `gomail.Message`, that is
`mime.QEncoding.Encode("UTF-8", value)`: the value itself when it needs no
encoding, its encoded-word form when it does. -/
def encodeString (value : String) : String :=
  if needsEncoding value then encodeWord value else value

/-! ## The `gomail` message and dialer

Header fields are the keys of a Go map and are told apart byte by byte (`From`
and `from` are two fields). -/

/-- A body part of a `gomail.Message`. -/
structure Part where
  contentType : String
  body : String
  deriving DecidableEq

/-- Go `gomail.Message`: its header, a `map[string][]string` (`none` for a
field that is not set), and its body parts. -/
structure Message where
  header : String → Option (List String)
  parts : List Part

/-- Go `gomail.NewMessage()`. -/
def NewMessage : Message :=
  { header := fun _ => none, parts := [] }

/-- Go `m.SetHeader(field, value...)`: `m.encodeHeader(value)` encodes every
value, then `m.header[field] = value` replaces what the field held. -/
def Message.SetHeader (m : Message) (field : String) (value : List String) : Message :=
  { m with header := fun f => if f = field then some (value.map encodeString) else m.header f }

/-- Go `m.SetBody(contentType, body)`. -/
def Message.SetBody (m : Message) (contentType body : String) : Message :=
  { m with parts := [{ contentType := contentType, body := body }] }

/-- Go `gomail.Dialer`. -/
structure Dialer where
  Host : String
  Port : Int
  Username : String
  Password : String
  SSL : Bool

/-- Go `gomail.NewDialer(host, port, username, password)`. -/
def NewDialer (host : String) (port : Int) (username password : String) : Dialer :=
  { Host := host, Port := port, Username := username, Password := password,
    SSL := decide (port = 465) }

/-- The SMTP relay as `d.DialAndSend(m)` sees it: the error it returns, `none`
for `nil`. -/
abbrev Relay := Dialer → Message → Option String

/-! ## `sendEmail` -/

/-- What a call of `sendEmail` does: the error it returns (`none` for `nil`)
and the calls of `DialAndSend` it made, in order. -/
structure SendResult where
  err : Option String
  dials : List (Dialer × Message)

/-- The loop `for key, value := range payload.Headers { m.SetHeader(key, value) }`. -/
def setCustomHeaders (m : Message) (headers : List (String × String)) : Message :=
  headers.foldl (fun m kv => m.SetHeader kv.1 [kv.2]) m

/-- Go `sendEmail(payload)`, with the global `config` and the relay passed in.
(`SetHeader` encodes the elements of the slices `To`, `Cc` and `Bcc` in place;
the caller reads only their lengths afterwards, which do not change.) -/
def sendEmail (config : Config) (relay : Relay) (payload : EmailPayload) : SendResult :=
  let m := NewMessage
  let m := m.SetHeader "From" [config.EmailFrom]
  if payload.To.length = 0 then
    { err := some "收件人不能为空", dials := [] }
  else
    let m := m.SetHeader "To" payload.To
    let m := if payload.Cc.length > 0 then m.SetHeader "Cc" payload.Cc else m
    let m := if payload.Bcc.length > 0 then m.SetHeader "Bcc" payload.Bcc else m
    let m := m.SetHeader "Subject" [payload.Subject]
    let contentType := if payload.IsHtml then "text/html" else "text/plain"
    let m := m.SetBody contentType payload.Body
    let m := setCustomHeaders m payload.Headers.entries
    let d := NewDialer config.SMTPHost config.SMTPPort config.SMTPUser config.SMTPPass
    { err := relay d m, dials := [(d, m)] }

/-! ## `emailWebhookHandler` -/

/-- What the handler is given besides the request: the result of
`json.NewDecoder(r.Body).Decode(&payload)` on a body (the payload, or the
error), the SMTP relay, and `time.Since(startTime).Milliseconds()`. -/
structure World where
  jsonDecode : String → Except String EmailPayload
  relay : Relay
  elapsedMs : Int

/-- The body written to the `http.ResponseWriter`: the text of `http.Error`, or
the value given to the JSON encoder. -/
inductive ResponseBody where
  | text (s : String)
  | json (v : JSON)

/-- The response the handler writes. -/
structure Response where
  status : Nat
  header : List (String × String)
  body : ResponseBody

/-- Go `http.Error(w, error, code)`. -/
def httpError (error : String) (code : Nat) : Response :=
  { status := code
    header := [("Content-Type", "text/plain; charset=utf-8"), ("X-Content-Type-Options", "nosniff")]
    body := .text (error ++ "\n") }

/-- What a call of the handler does: the response, and the calls of
`DialAndSend` made while serving the request. -/
structure HandlerResult where
  response : Response
  dials : List (Dialer × Message)

/-- Go `emailWebhookHandler(w, r)`, with the global `config` passed in. The
lines written to the log are not part of the embedding. -/
def emailWebhookHandler (config : Config) (world : World) (r : Request) : HandlerResult :=
  if r.Method ≠ "POST" then
    { response := httpError "只支持POST方法" 405, dials := [] }
  else if !validateToken config r then
    { response := httpError "未授权访问" 401, dials := [] }
  else
    match world.jsonDecode r.Body with
    | .error _ =>
      { response := httpError "无效的请求体" 400, dials := [] }
    | .ok payload =>
      let sent := sendEmail config world.relay payload
      match sent.err with
      | some err =>
        { response :=
            { status := 500
              header := [("Content-Type", "application/json")]
              body := .json (.obj [("message", .str ("邮件发送失败: " ++ err)),
                                   ("status", .str "error")]) }
          dials := sent.dials }
      | none =>
        let duration := world.elapsedMs
        { response :=
            { status := 200
              header := [("Content-Type", "application/json")]
              body := .json (.obj
                [("message", .str "邮件已发送"),
                 ("metadata", .obj
                    [("duration_ms", .num duration),
                     ("recipients",
                        .num ((payload.To.length + payload.Cc.length + payload.Bcc.length : Nat) : Int))]),
                 ("status", .str "success")]) }
          dials := sent.dials }

/-- The `recipients` number in the `metadata` of a JSON response body. -/
def Response.recipients (resp : Response) : Option Int :=
  match resp.body with
  | .json v =>
    match (v.member "metadata").bind (fun md => md.member "recipients") with
    | some (.num n) => some n
    | _ => none
  | .text _ => none

/-! ## Concrete inputs used in the examples below -/

/-- A request header that holds only `Authorization: v`. -/
def authorization (v : String) : Header :=
  fun key => if key = "Authorization" then [v] else []

/-- A request header with no `Authorization` field. -/
def noAuthorization : Header := fun _ => []

/-- A valid configuration with the webhook token `token`. -/
def sampleConfig (token : String) : Config :=
  { Port := "8080", WebhookToken := token, SMTPHost := "smtp.x.com", SMTPPort := 587,
    SMTPUser := "user", SMTPPass := "pass", EmailFrom := "noreply@x.com" }

/-- A JSON decoder that knows one body: it decodes `body` to `payload` and
fails on every other body. -/
def decodeOnly (body : String) (payload : EmailPayload) : String → Except String EmailPayload :=
  fun b => if b = body then .ok payload else .error "invalid character"

/-- A JSON decoder that fails on every body. -/
def decodeNothing : String → Except String EmailPayload :=
  fun _ => .error "unexpected end of JSON input"

/-- A relay that accepts every message. -/
def relayAccepts : Relay := fun _ _ => none

/-- The request body of the example scenario of the specification. -/
def exampleBody : String :=
  "\x7b\"to\":[\"a@x.com\"],\"subject\":\"Hi\",\"body\":\"hello\"\x7d"

/-- The payload `exampleBody` decodes to. -/
def examplePayload : EmailPayload :=
  { To := ["a@x.com"], Subject := "Hi", Body := "hello" }

/-- The example scenario: the body decodes, the relay is reachable. -/
def exampleWorld : World :=
  { jsonDecode := decodeOnly exampleBody examplePayload, relay := relayAccepts, elapsedMs := 12 }

/-- The example request, sent with the token `"s3cret"` as a bearer token. -/
def exampleRequest : Request :=
  { Method := "POST", Header := authorization "Bearer s3cret", Body := exampleBody }

/-- A body with an empty recipient list, and Cc and Bcc given. -/
def noRecipientsBody : String :=
  "\x7b\"to\":[],\"cc\":[\"c@x.com\"],\"bcc\":[\"b@x.com\"],\"subject\":\"Hi\"\x7d"

/-- The payload `noRecipientsBody` decodes to. -/
def noRecipientsPayload : EmailPayload :=
  { To := [], Cc := ["c@x.com"], Bcc := ["b@x.com"], Subject := "Hi" }

/-- A world in which `noRecipientsBody` decodes. -/
def noRecipientsWorld : World :=
  { jsonDecode := decodeOnly noRecipientsBody noRecipientsPayload, relay := relayAccepts,
    elapsedMs := 1 }

/-- A world in which no body decodes. -/
def brokenBodyWorld : World :=
  { jsonDecode := decodeNothing, relay := relayAccepts, elapsedMs := 1 }

/-- A payload whose custom headers hold the key `From`. -/
def forgedFromPayload : EmailPayload :=
  { To := ["a@x.com"], Subject := "Hi", Body := "hello",
    Headers := ⟨[("From", "ceo@evil.example")], by decide⟩ }

/-- A payload with two custom headers and an HTML body. -/
def customHeadersPayload : EmailPayload :=
  { To := ["a@x.com"], Subject := "Hi", Body := "<b>hello</b>", IsHtml := true,
    Headers := ⟨[("X-Campaign", "spring"), ("Reply-To", "support@x.com")], by decide⟩ }

/-- A payload with a custom header whose value is not plain ASCII. -/
def accentedHeaderPayload : EmailPayload :=
  { To := ["a@x.com"], Subject := "Hi", Body := "hello",
    Headers := ⟨[("X-Note", "café")], by decide⟩ }

/-- A valid configuration whose default sender is not plain ASCII. -/
def accentedSenderConfig : Config :=
  { Port := "8080", WebhookToken := "s3cret", SMTPHost := "smtp.x.com", SMTPPort := 587,
    SMTPUser := "user", SMTPPass := "pass", EmailFrom := "Büro <office@x.com>" }

/-- An environment in which only the listed variables are set. -/
def environ (vars : List (String × String)) : Environ :=
  fun key => (vars.lookup key).getD ""

/-- A complete environment, with `SMTP_PORT` set to `port`. -/
def sampleEnviron (port : String) : Environ :=
  environ [("WEBHOOK_TOKEN", "s3cret"), ("SMTP_HOST", "smtp.x.com"), ("SMTP_PORT", port),
    ("SMTP_USER", "user"), ("SMTP_PASS", "pass"), ("EMAIL_FROM", "noreply@x.com")]

/-! ## Lemmas on the library functions -/

theorem stringsHasPrefix_iff (s pre : String) :
    stringsHasPrefix s pre = true ↔ ∃ rest : String, s = pre ++ rest := by
  unfold stringsHasPrefix
  rw [List.isPrefixOf_iff_prefix]
  constructor
  · rintro ⟨t, ht⟩
    exact ⟨⟨t⟩, String.ext (by simp [String.data_append, ht])⟩
  · rintro ⟨rest, rfl⟩
    exact ⟨rest.data, by simp [String.data_append]⟩

theorem stringsTrimPrefix_append (pre rest : String) :
    stringsTrimPrefix (pre ++ rest) pre = rest := by
  have h : stringsHasPrefix (pre ++ rest) pre = true :=
    (stringsHasPrefix_iff _ _).2 ⟨rest, rfl⟩
  unfold stringsTrimPrefix
  rw [if_pos h]
  exact String.ext (by simp [String.data_append])

theorem validateToken_eq (config : Config) (r : Request) :
    validateToken config r =
      (if r.Header.Get "Authorization" = "" then false
       else if stringsHasPrefix (r.Header.Get "Authorization") "Bearer " then
         decide (stringsTrimPrefix (r.Header.Get "Authorization") "Bearer " = config.WebhookToken)
       else decide (r.Header.Get "Authorization" = config.WebhookToken)) := by
  unfold validateToken
  by_cases h1 : r.Header.Get "Authorization" = ""
  · simp [h1]
  · by_cases h2 : stringsHasPrefix (r.Header.Get "Authorization") "Bearer " = true
    · simp [h1, h2]
    · simp [h1, h2]

theorem bearer_append_ne_empty (t : String) : "Bearer " ++ t ≠ "" := by
  intro h
  have h2 := congrArg String.length h
  rw [String.length_append] at h2
  have h3 : "Bearer ".length = 7 := by decide
  have h4 : "".length = 0 := by decide
  omega

theorem string_append_left_cancel (a b c : String) (h : a ++ b = a ++ c) : b = c := by
  have h2 := congrArg String.data h
  simp only [String.data_append] at h2
  exact String.ext (List.append_cancel_left h2)

theorem validateToken_bearer (config : Config) (r : Request) (rest : String)
    (h : r.Header.Get "Authorization" = "Bearer " ++ rest) :
    validateToken config r = decide (rest = config.WebhookToken) := by
  rw [validateToken_eq, h, if_neg (bearer_append_ne_empty rest),
    if_pos ((stringsHasPrefix_iff _ _).2 ⟨rest, rfl⟩), stringsTrimPrefix_append]

theorem validateToken_plain (config : Config) (r : Request)
    (h0 : r.Header.Get "Authorization" ≠ "")
    (h : ∀ rest : String, r.Header.Get "Authorization" ≠ "Bearer " ++ rest) :
    validateToken config r = decide (r.Header.Get "Authorization" = config.WebhookToken) := by
  have hp : ¬ stringsHasPrefix (r.Header.Get "Authorization") "Bearer " = true := by
    intro hp
    obtain ⟨rest, hrest⟩ := (stringsHasPrefix_iff _ _).1 hp
    exact h rest hrest
  rw [validateToken_eq, if_neg h0, if_neg hp]

/-! ## The token authenticator -/

/-- C2: `validateToken` returns true exactly when the `Authorization` value is
not empty and, with one leading `"Bearer "` removed if it has one, is equal to
the configured secret. In particular the empty value is rejected. -/
theorem C2_validateToken_iff (config : Config) (r : Request) :
    validateToken config r = true ↔
      r.Header.Get "Authorization" ≠ "" ∧
      ((∃ rest : String, r.Header.Get "Authorization" = "Bearer " ++ rest ∧
          rest = config.WebhookToken) ∨
       ((∀ rest : String, r.Header.Get "Authorization" ≠ "Bearer " ++ rest) ∧
          r.Header.Get "Authorization" = config.WebhookToken)) := by
  by_cases h0 : r.Header.Get "Authorization" = ""
  · rw [validateToken_eq, if_pos h0]
    simp [h0]
  · by_cases hp : ∃ rest : String, r.Header.Get "Authorization" = "Bearer " ++ rest
    · obtain ⟨rest, hrest⟩ := hp
      rw [validateToken_bearer config r rest hrest, decide_eq_true_iff]
      constructor
      · intro h
        exact ⟨h0, Or.inl ⟨rest, hrest, h⟩⟩
      · rintro ⟨-, ⟨rest2, h2, h3⟩ | ⟨h2, -⟩⟩
        · rw [hrest] at h2
          rw [string_append_left_cancel _ _ _ h2]
          exact h3
        · exact absurd hrest (h2 rest)
    · have hp2 : ∀ rest : String, r.Header.Get "Authorization" ≠ "Bearer " ++ rest :=
        fun rest h => hp ⟨rest, h⟩
      rw [validateToken_plain config r h0 hp2, decide_eq_true_iff]
      constructor
      · intro h
        exact ⟨h0, Or.inr ⟨hp2, h⟩⟩
      · rintro ⟨-, ⟨rest2, h2, -⟩ | ⟨-, h3⟩⟩
        · exact absurd h2 (hp2 rest2)
        · exact h3

/-- C3, counterexample: with the non-empty token `"Bearer x"` configured, the
header value that is the token itself does not authenticate. -/
theorem C3_counterexample :
    (sampleConfig "Bearer x").WebhookToken ≠ "" ∧
    (authorization "Bearer x").Get "Authorization" = (sampleConfig "Bearer x").WebhookToken ∧
    validateToken (sampleConfig "Bearer x")
      { Method := "POST", Header := authorization "Bearer x", Body := "" } = false := by
  decide

/-- C3, amended: for a non-empty configured token `t`, the header value
`"Bearer " ++ t` authenticates, and the header value `t` itself authenticates
exactly when `t` does not start with `"Bearer "`. -/
theorem C3_validateToken_forms (config : Config) (r : Request)
    (ht : config.WebhookToken ≠ "") :
    (r.Header.Get "Authorization" = "Bearer " ++ config.WebhookToken →
      validateToken config r = true) ∧
    (r.Header.Get "Authorization" = config.WebhookToken →
      (validateToken config r = true ↔
        ∀ rest : String, config.WebhookToken ≠ "Bearer " ++ rest)) := by
  constructor
  · intro h
    rw [validateToken_bearer config r _ h]
    exact decide_eq_true rfl
  · intro h
    have h0 : r.Header.Get "Authorization" ≠ "" := by rw [h]; exact ht
    constructor
    · intro hv rest hrest
      have hb : r.Header.Get "Authorization" = "Bearer " ++ rest := by rw [h, hrest]
      rw [validateToken_bearer config r rest hb, decide_eq_true_iff] at hv
      subst hv
      have hlen := congrArg String.length hrest
      rw [String.length_append] at hlen
      have h7 : "Bearer ".length = 7 := by decide
      omega
    · intro hno
      have hno2 : ∀ rest : String, r.Header.Get "Authorization" ≠ "Bearer " ++ rest := by
        intro rest; rw [h]; exact hno rest
      rw [validateToken_plain config r h0 hno2]
      exact decide_eq_true h

/-- C3, witness: the token `"s3cret"`, sent as `Bearer s3cret`. -/
theorem C3_validateToken_forms_witness :
    validateToken (sampleConfig "s3cret")
      { Method := "POST", Header := authorization "Bearer s3cret", Body := "" } = true :=
  (C3_validateToken_forms (sampleConfig "s3cret")
    { Method := "POST", Header := authorization "Bearer s3cret", Body := "" }
    (by decide)).1 (by decide)

/-! ## The send endpoint -/

theorem handler_not_post (config : Config) (world : World) (r : Request)
    (hm : r.Method ≠ "POST") :
    emailWebhookHandler config world r =
      { response := httpError "只支持POST方法" 405, dials := [] } := by
  unfold emailWebhookHandler
  rw [if_pos hm]

theorem handler_unauthorized (config : Config) (world : World) (r : Request)
    (hm : r.Method = "POST") (ha : validateToken config r = false) :
    emailWebhookHandler config world r =
      { response := httpError "未授权访问" 401, dials := [] } := by
  unfold emailWebhookHandler
  rw [if_neg (not_not.2 hm), ha]
  rfl

theorem handler_decode_error (config : Config) (world : World) (r : Request) (e : String)
    (hm : r.Method = "POST") (ha : validateToken config r = true)
    (hd : world.jsonDecode r.Body = .error e) :
    emailWebhookHandler config world r =
      { response := httpError "无效的请求体" 400, dials := [] } := by
  unfold emailWebhookHandler
  rw [if_neg (not_not.2 hm), ha]
  simp only [Bool.not_true, Bool.false_eq_true, if_false, hd]

theorem handler_send_error (config : Config) (world : World) (r : Request)
    (payload : EmailPayload) (err : String)
    (hm : r.Method = "POST") (ha : validateToken config r = true)
    (hd : world.jsonDecode r.Body = .ok payload)
    (hs : (sendEmail config world.relay payload).err = some err) :
    emailWebhookHandler config world r =
      { response :=
          { status := 500
            header := [("Content-Type", "application/json")]
            body := .json (.obj [("message", .str ("邮件发送失败: " ++ err)),
                                 ("status", .str "error")]) }
        dials := (sendEmail config world.relay payload).dials } := by
  unfold emailWebhookHandler
  rw [if_neg (not_not.2 hm), ha]
  simp only [Bool.not_true, Bool.false_eq_true, if_false, hd, hs]

theorem handler_success (config : Config) (world : World) (r : Request)
    (payload : EmailPayload)
    (hm : r.Method = "POST") (ha : validateToken config r = true)
    (hd : world.jsonDecode r.Body = .ok payload)
    (hs : (sendEmail config world.relay payload).err = none) :
    emailWebhookHandler config world r =
      { response :=
          { status := 200
            header := [("Content-Type", "application/json")]
            body := .json (.obj
              [("message", .str "邮件已发送"),
               ("metadata", .obj
                  [("duration_ms", .num world.elapsedMs),
                   ("recipients",
                      .num ((payload.To.length + payload.Cc.length + payload.Bcc.length : Nat) : Int))]),
               ("status", .str "success")]) }
        dials := (sendEmail config world.relay payload).dials } := by
  unfold emailWebhookHandler
  rw [if_neg (not_not.2 hm), ha]
  simp only [Bool.not_true, Bool.false_eq_true, if_false, hd, hs]

theorem sendEmail_no_recipients (config : Config) (relay : Relay) (payload : EmailPayload)
    (hto : payload.To = []) :
    sendEmail config relay payload = { err := some "收件人不能为空", dials := [] } := by
  unfold sendEmail
  simp [hto]

/-- C1, counterexample: a `GET` request without an `Authorization` header is
answered with 405, not with 401. -/
theorem C1_counterexample :
    validateToken (sampleConfig "s3cret")
      { Method := "GET", Header := noAuthorization, Body := "" } = false ∧
    (emailWebhookHandler (sampleConfig "s3cret") exampleWorld
      { Method := "GET", Header := noAuthorization, Body := "" }).response.status = 405 ∧
    (emailWebhookHandler (sampleConfig "s3cret") exampleWorld
      { Method := "GET", Header := noAuthorization, Body := "" }).response.status ≠ 401 := by
  decide

/-- C1, amended: a request that `validateToken` rejects never reaches
`sendEmail` or the SMTP dial, whatever its method and body; it is answered with
401 when its method is `POST` and with 405 when it is not. -/
theorem C1_unauthorized_no_dial (config : Config) (world : World) (r : Request)
    (ha : validateToken config r = false) :
    (emailWebhookHandler config world r).dials = [] ∧
    (r.Method = "POST" → (emailWebhookHandler config world r).response.status = 401) ∧
    (r.Method ≠ "POST" → (emailWebhookHandler config world r).response.status = 405) := by
  refine ⟨?_, ?_, ?_⟩
  · by_cases hm : r.Method = "POST"
    · rw [handler_unauthorized config world r hm ha]
    · rw [handler_not_post config world r hm]
  · intro hm
    rw [handler_unauthorized config world r hm ha]
    rfl
  · intro hm
    rw [handler_not_post config world r hm]
    rfl

/-- C1, witness: the example request sent with a wrong token. -/
theorem C1_unauthorized_no_dial_witness :
    (emailWebhookHandler (sampleConfig "s3cret") exampleWorld
      { Method := "POST", Header := authorization "Bearer wrong", Body := exampleBody }).dials = [] ∧
    (emailWebhookHandler (sampleConfig "s3cret") exampleWorld
      { Method := "POST", Header := authorization "Bearer wrong", Body := exampleBody }
      ).response.status = 401 :=
  ⟨(C1_unauthorized_no_dial (sampleConfig "s3cret") exampleWorld
      { Method := "POST", Header := authorization "Bearer wrong", Body := exampleBody }
      (by decide)).1,
   (C1_unauthorized_no_dial (sampleConfig "s3cret") exampleWorld
      { Method := "POST", Header := authorization "Bearer wrong", Body := exampleBody }
      (by decide)).2.1 rfl⟩

/-- C5: an authenticated `POST` whose decoded payload has an empty `To` list,
whatever its `Cc` and `Bcc`: `sendEmail` returns the missing-recipients error
and dials nothing, and the endpoint answers 500 with the JSON error envelope. -/
theorem C5_empty_to_is_500 (config : Config) (world : World) (r : Request)
    (payload : EmailPayload)
    (hm : r.Method = "POST") (ha : validateToken config r = true)
    (hd : world.jsonDecode r.Body = .ok payload) (hto : payload.To = []) :
    (sendEmail config world.relay payload).err = some "收件人不能为空" ∧
    (sendEmail config world.relay payload).dials = [] ∧
    (emailWebhookHandler config world r).dials = [] ∧
    (emailWebhookHandler config world r).response.status = 500 ∧
    (emailWebhookHandler config world r).response.header =
      [("Content-Type", "application/json")] ∧
    (emailWebhookHandler config world r).response.body =
      .json (.obj [("message", .str "邮件发送失败: 收件人不能为空"), ("status", .str "error")]) := by
  have hs := sendEmail_no_recipients config world.relay payload hto
  have herr : (sendEmail config world.relay payload).err = some "收件人不能为空" := by rw [hs]
  rw [handler_send_error config world r payload _ hm ha hd herr, hs]
  refine ⟨rfl, rfl, rfl, rfl, rfl, ?_⟩
  have hmsg : "邮件发送失败: " ++ "收件人不能为空" = "邮件发送失败: 收件人不能为空" := by decide
  simp only [hmsg]

/-- C5, witness: `to` empty, `cc` and `bcc` given. -/
theorem C5_empty_to_is_500_witness :
    noRecipientsPayload.Cc ≠ [] ∧ noRecipientsPayload.Bcc ≠ [] ∧
    (emailWebhookHandler (sampleConfig "s3cret") noRecipientsWorld
      { Method := "POST", Header := authorization "s3cret", Body := noRecipientsBody }
      ).response.status = 500 :=
  ⟨by decide, by decide,
   (C5_empty_to_is_500 (sampleConfig "s3cret") noRecipientsWorld
      { Method := "POST", Header := authorization "s3cret", Body := noRecipientsBody }
      noRecipientsPayload rfl (by decide) rfl rfl).2.2.2.1⟩

/-- C6: when the send endpoint answers 200, the body was decoded to a payload
and the `recipients` number of the response metadata is
`len(To) + len(Cc) + len(Bcc)` of that payload. -/
theorem C6_recipients_count (config : Config) (world : World) (r : Request)
    (h200 : (emailWebhookHandler config world r).response.status = 200) :
    ∃ payload : EmailPayload,
      world.jsonDecode r.Body = .ok payload ∧
      (emailWebhookHandler config world r).response.recipients =
        some ((payload.To.length + payload.Cc.length + payload.Bcc.length : Nat) : Int) := by
  by_cases hm : r.Method = "POST"
  · cases ha : validateToken config r with
    | false =>
      rw [handler_unauthorized config world r hm ha] at h200
      exact absurd h200 (by decide)
    | true =>
      cases hd : world.jsonDecode r.Body with
      | error e =>
        rw [handler_decode_error config world r e hm ha hd] at h200
        exact absurd h200 (by decide)
      | ok payload =>
        cases hs : (sendEmail config world.relay payload).err with
        | some err =>
          rw [handler_send_error config world r payload err hm ha hd hs] at h200
          exact absurd h200 (show (500 : Nat) ≠ 200 by decide)
        | none =>
          refine ⟨payload, rfl, ?_⟩
          rw [handler_success config world r payload hm ha hd hs]
          rfl
  · rw [handler_not_post config world r hm] at h200
    exact absurd h200 (by decide)

/-- C6, witness: the example scenario, one `to` address and no `cc` or `bcc`,
answers 200 with `recipients` 1. -/
theorem C6_recipients_count_witness :
    (emailWebhookHandler (sampleConfig "s3cret") exampleWorld exampleRequest).response.status
      = 200 ∧
    (emailWebhookHandler (sampleConfig "s3cret") exampleWorld exampleRequest).response.recipients
      = some 1 ∧
    ∃ payload : EmailPayload,
      exampleWorld.jsonDecode exampleRequest.Body = .ok payload ∧
      (emailWebhookHandler (sampleConfig "s3cret") exampleWorld exampleRequest
        ).response.recipients =
        some ((payload.To.length + payload.Cc.length + payload.Bcc.length : Nat) : Int) :=
  ⟨by decide, by decide,
   C6_recipients_count (sampleConfig "s3cret") exampleWorld exampleRequest (by decide)⟩

/-- C7: an authenticated `POST` whose body fails to decode is answered with
400, and neither `sendEmail` nor the SMTP dial is reached. -/
theorem C7_decode_error_is_400 (config : Config) (world : World) (r : Request) (e : String)
    (hm : r.Method = "POST") (ha : validateToken config r = true)
    (hd : world.jsonDecode r.Body = .error e) :
    (emailWebhookHandler config world r).response.status = 400 ∧
    (emailWebhookHandler config world r).dials = [] := by
  rw [handler_decode_error config world r e hm ha hd]
  exact ⟨rfl, rfl⟩

/-- C7, witness: a body that is not JSON. -/
theorem C7_decode_error_is_400_witness :
    (emailWebhookHandler (sampleConfig "s3cret") brokenBodyWorld
      { Method := "POST", Header := authorization "Bearer s3cret", Body := "to=a@x.com" }
      ).response.status = 400 ∧
    (emailWebhookHandler (sampleConfig "s3cret") brokenBodyWorld
      { Method := "POST", Header := authorization "Bearer s3cret", Body := "to=a@x.com" }
      ).dials = [] :=
  C7_decode_error_is_400 (sampleConfig "s3cret") brokenBodyWorld
    { Method := "POST", Header := authorization "Bearer s3cret", Body := "to=a@x.com" }
    "unexpected end of JSON input" rfl (by decide) rfl

/-! ## The mail dispatcher -/

/-- A value made of printable ASCII characters and tabs only needs no
encoding. -/
theorem needsEncoding_eq_false (s : String)
    (h : ∀ c ∈ s.data, (' ' ≤ c ∧ c ≤ '~') ∨ c = '\t') : needsEncoding s = false := by
  unfold needsEncoding
  rw [List.any_eq_false]
  intro c hc
  rw [decide_eq_true_iff]
  rintro ⟨hout, htab⟩
  rcases h c hc with ⟨h1, h2⟩ | h3
  · rcases hout with h4 | h4
    · exact absurd h1 (not_le.2 h4)
    · exact absurd h2 (not_le.2 h4)
  · exact htab h3

/-- The header encoder leaves a value of printable ASCII characters and tabs
as it is. -/
theorem encodeString_of_printable (s : String)
    (h : ∀ c ∈ s.data, (' ' ≤ c ∧ c ≤ '~') ∨ c = '\t') : encodeString s = s := by
  unfold encodeString
  rw [needsEncoding_eq_false s h]
  rfl

theorem setCustomHeaders_cons (m : Message) (kv : String × String)
    (l : List (String × String)) :
    setCustomHeaders m (kv :: l) = setCustomHeaders (m.SetHeader kv.1 [kv.2]) l := rfl

theorem setCustomHeaders_parts (m : Message) (l : List (String × String)) :
    (setCustomHeaders m l).parts = m.parts := by
  induction l generalizing m with
  | nil => rfl
  | cons kv l ih => rw [setCustomHeaders_cons, ih]; rfl

theorem setCustomHeaders_header_of_not_mem (m : Message) (l : List (String × String))
    (k : String) (h : k ∉ l.map Prod.fst) :
    (setCustomHeaders m l).header k = m.header k := by
  induction l generalizing m with
  | nil => rfl
  | cons kv l ih =>
    rw [List.map_cons, List.mem_cons, not_or] at h
    rw [setCustomHeaders_cons, ih _ h.2]
    show (if k = kv.1 then some ([kv.2].map encodeString) else m.header k) = m.header k
    rw [if_neg h.1]

theorem setCustomHeaders_header_of_mem (m : Message) (l : List (String × String))
    (k v : String) (hn : (l.map Prod.fst).Nodup) (h : (k, v) ∈ l) :
    (setCustomHeaders m l).header k = some [encodeString v] := by
  induction l generalizing m with
  | nil => exact absurd h (List.not_mem_nil _)
  | cons kv l ih =>
    rw [List.map_cons, List.nodup_cons] at hn
    rw [setCustomHeaders_cons]
    rcases List.mem_cons.1 h with heq | hmem
    · subst heq
      rw [setCustomHeaders_header_of_not_mem _ _ _ hn.1]
      show (if k = k then some ([v].map encodeString) else m.header k) = some [encodeString v]
      rw [if_pos rfl]
      rfl
    · exact ih _ hn.2 hmem

/-- With a recipient, `sendEmail` dials once, with the message it has built
up to the custom headers and the custom headers then set on it. -/
theorem sendEmail_dials (config : Config) (relay : Relay) (payload : EmailPayload)
    (hto : payload.To ≠ []) :
    ∃ m0 : Message,
      m0.header "From" = some [encodeString config.EmailFrom] ∧
      m0.parts = [{ contentType := if payload.IsHtml then "text/html" else "text/plain",
                    body := payload.Body }] ∧
      (sendEmail config relay payload).dials =
        [(NewDialer config.SMTPHost config.SMTPPort config.SMTPUser config.SMTPPass,
          setCustomHeaders m0 payload.Headers.entries)] := by
  have hlen : ¬ payload.To.length = 0 := fun h => hto (List.length_eq_zero.1 h)
  unfold sendEmail
  simp only [if_neg hlen]
  refine ⟨_, ?_, ?_, rfl⟩
  · by_cases hcc : payload.Cc.length > 0 <;> by_cases hbcc : payload.Bcc.length > 0 <;>
      simp [hcc, hbcc, Message.SetHeader, Message.SetBody, NewMessage]
  · rfl

/-- C4, counterexample: a payload whose custom headers hold the key `From` is
dialed with that value as the `From` header, not with `config.EmailFrom`; and
a default sender that is not plain ASCII is dialed in its encoded-word form. -/
theorem C4_counterexample :
    (forgedFromPayload.To ≠ [] ∧
     (sampleConfig "s3cret").EmailFrom = "noreply@x.com" ∧
     (sendEmail (sampleConfig "s3cret") relayAccepts forgedFromPayload).dials.map
       (fun call => call.2.header "From") = [some ["ceo@evil.example"]]) ∧
    (examplePayload.To ≠ [] ∧ examplePayload.Headers.entries = [] ∧
     accentedSenderConfig.EmailFrom = "Büro <office@x.com>" ∧
     (sendEmail accentedSenderConfig relayAccepts examplePayload).dials.map
       (fun call => call.2.header "From") = [some ["=?UTF-8?q?B=C3=BCro_<office@x.com>?="]]) := by
  decide

/-- C4, amended: for a payload with a non-empty `To` list whose custom headers
have no entry with the key `From`, the one message `sendEmail` hands to the
dialer has as its `From` header the header encoding of `config.EmailFrom`,
which is `config.EmailFrom` itself when that consists of printable ASCII
characters and tabs only. -/
theorem C4_from_is_default_sender (config : Config) (relay : Relay) (payload : EmailPayload)
    (hto : payload.To ≠ [])
    (hfrom : "From" ∉ payload.Headers.entries.map Prod.fst) :
    ∃ (d : Dialer) (m : Message),
      (sendEmail config relay payload).dials = [(d, m)] ∧
      m.header "From" = some [encodeString config.EmailFrom] ∧
      ((∀ c ∈ config.EmailFrom.data, (' ' ≤ c ∧ c ≤ '~') ∨ c = '\t') →
        m.header "From" = some [config.EmailFrom]) := by
  obtain ⟨m0, h1, -, h3⟩ := sendEmail_dials config relay payload hto
  have h4 : (setCustomHeaders m0 payload.Headers.entries).header "From" =
      some [encodeString config.EmailFrom] := by
    rw [setCustomHeaders_header_of_not_mem _ _ _ hfrom, h1]
  refine ⟨_, _, h3, h4, ?_⟩
  intro hp
  rw [h4, encodeString_of_printable _ hp]

/-- C4, witness: the payload with the custom headers `X-Campaign` and
`Reply-To`, and the plain ASCII sender `noreply@x.com`. -/
theorem C4_from_is_default_sender_witness :
    ∃ (d : Dialer) (m : Message),
      (sendEmail (sampleConfig "s3cret") relayAccepts customHeadersPayload).dials = [(d, m)] ∧
      m.header "From" = some ["noreply@x.com"] := by
  obtain ⟨d, m, h1, -, h3⟩ :=
    C4_from_is_default_sender (sampleConfig "s3cret") relayAccepts customHeadersPayload
      (by decide) (by decide)
  exact ⟨d, m, h1, h3 (by decide)⟩

/-- C10, counterexample: the custom header `X-Note: café` is on the dialed
message with the encoded word as its value, not with `café`. -/
theorem C10_counterexample :
    accentedHeaderPayload.To ≠ [] ∧
    ("X-Note", "café") ∈ accentedHeaderPayload.Headers.entries ∧
    (sendEmail (sampleConfig "s3cret") relayAccepts accentedHeaderPayload).dials.map
      (fun call => call.2.header "X-Note") = [some ["=?UTF-8?q?caf=C3=A9?="]] ∧
    (sendEmail (sampleConfig "s3cret") relayAccepts accentedHeaderPayload).dials.map
      (fun call => call.2.header "X-Note") ≠ [some ["café"]] := by
  decide

/-- C10, amended: for a payload with a non-empty `To` list and an entry
`(k, v)` of its custom headers, the one message `sendEmail` hands to the dialer
has the header `k` with a single value, the header encoding of `v`, which is
`v` itself when `v` consists of printable ASCII characters and tabs only; its
body has the content type `text/html` when `IsHtml` is set and `text/plain`
when it is not. -/
theorem C10_custom_headers_and_content_type (config : Config) (relay : Relay)
    (payload : EmailPayload) (k v : String)
    (hto : payload.To ≠ []) (hkv : (k, v) ∈ payload.Headers.entries) :
    ∃ (d : Dialer) (m : Message),
      (sendEmail config relay payload).dials = [(d, m)] ∧
      m.header k = some [encodeString v] ∧
      ((∀ c ∈ v.data, (' ' ≤ c ∧ c ≤ '~') ∨ c = '\t') → m.header k = some [v]) ∧
      m.parts.map Part.contentType =
        [if payload.IsHtml = true then "text/html" else "text/plain"] := by
  obtain ⟨m0, -, h2, h3⟩ := sendEmail_dials config relay payload hto
  have h4 : (setCustomHeaders m0 payload.Headers.entries).header k =
      some [encodeString v] :=
    setCustomHeaders_header_of_mem _ _ k v payload.Headers.nodup hkv
  refine ⟨_, _, h3, h4, ?_, ?_⟩
  · intro hp
    rw [h4, encodeString_of_printable _ hp]
  · rw [setCustomHeaders_parts, h2]
    rfl

/-- C10, witness: the header `Reply-To` of an HTML message. -/
theorem C10_custom_headers_and_content_type_witness :
    ∃ (d : Dialer) (m : Message),
      (sendEmail (sampleConfig "s3cret") relayAccepts customHeadersPayload).dials = [(d, m)] ∧
      m.header "Reply-To" = some ["support@x.com"] ∧
      m.parts.map Part.contentType = ["text/html"] := by
  obtain ⟨d, m, h1, -, h3, h4⟩ :=
    C10_custom_headers_and_content_type (sampleConfig "s3cret") relayAccepts
      customHeadersPayload "Reply-To" "support@x.com" (by decide) (by decide)
  exact ⟨d, m, h1, h3 (by decide), h4⟩

/-! ## The configuration loader -/

/-- C8: `loadConfig` returns an error exactly when one of `WEBHOOK_TOKEN`,
`SMTP_HOST`, `SMTP_USER`, `SMTP_PASS`, `EMAIL_FROM` is empty; when it returns
none, the port is `PORT`, or `"8080"` when `PORT` is empty, and the required
fields hold the non-empty values of their variables. -/
theorem C8_loadConfig_error_iff (env : Environ) :
    ((loadConfig env).2 ≠ none ↔
      (env "WEBHOOK_TOKEN" = "" ∨ env "SMTP_HOST" = "" ∨ env "SMTP_USER" = "" ∨
        env "SMTP_PASS" = "" ∨ env "EMAIL_FROM" = "")) ∧
    ((loadConfig env).2 = none →
      (loadConfig env).1.Port = (if env "PORT" = "" then "8080" else env "PORT") ∧
      (loadConfig env).1.WebhookToken = env "WEBHOOK_TOKEN" ∧
      (loadConfig env).1.SMTPHost = env "SMTP_HOST" ∧
      (loadConfig env).1.SMTPUser = env "SMTP_USER" ∧
      (loadConfig env).1.SMTPPass = env "SMTP_PASS" ∧
      (loadConfig env).1.EmailFrom = env "EMAIL_FROM" ∧
      (loadConfig env).1.WebhookToken ≠ "" ∧ (loadConfig env).1.SMTPHost ≠ "" ∧
      (loadConfig env).1.SMTPUser ≠ "" ∧ (loadConfig env).1.SMTPPass ≠ "" ∧
      (loadConfig env).1.EmailFrom ≠ "") := by
  have hget : ∀ key : String, getEnv env key "" = env key := by
    intro key
    unfold getEnv
    by_cases h : env key = ""
    · simp [h]
    · simp [h]
  unfold loadConfig
  simp only [hget]
  by_cases h1 : env "WEBHOOK_TOKEN" = ""
  · simp [h1]
  · by_cases h2 : env "SMTP_HOST" = ""
    · simp [h1, h2]
    · by_cases h3 : env "SMTP_USER" = ""
      · simp [h1, h2, h3]
      · by_cases h4 : env "SMTP_PASS" = ""
        · simp [h1, h2, h3, h4]
        · by_cases h5 : env "EMAIL_FROM" = ""
          · simp [h1, h2, h3, h4, h5]
          · simp [h1, h2, h3, h4, h5, getEnv]

/-- C8, witness: a complete environment without `PORT` loads without error and
listens on port 8080. -/
theorem C8_loadConfig_error_iff_witness :
    (loadConfig (sampleEnviron "587")).2 = none ∧
    (loadConfig (sampleEnviron "587")).1.Port = "8080" :=
  ⟨by decide,
   ((C8_loadConfig_error_iff (sampleEnviron "587")).2 (by decide)).1.trans (by decide)⟩

/-- The cases of `getEnvAsInt` that fall back or parse as expected: an unset
variable and a value without a leading number give the default, a value is
scanned up to its first rune that is not a digit, a decimal integer gives its
value. -/
theorem getEnvAsInt_examples :
    getEnvAsInt (environ []) "SMTP_PORT" 587 = 587 ∧
    getEnvAsInt (sampleEnviron "abc") "SMTP_PORT" 587 = 587 ∧
    getEnvAsInt (sampleEnviron "1_000") "SMTP_PORT" 587 = 1 ∧
    getEnvAsInt (sampleEnviron "2525") "SMTP_PORT" 587 = 2525 := by
  decide

/-- C9, the code at `SMTP_PORT=25x`: the value is not a decimal integer, and
`getEnvAsInt` returns 25, not the default 587. -/
theorem C9_getEnvAsInt_trailing_text :
    sampleEnviron "25x" "SMTP_PORT" = "25x" ∧
    getEnvAsInt (sampleEnviron "25x") "SMTP_PORT" 587 = 25 ∧
    (loadConfig (sampleEnviron "25x")).1.SMTPPort = 25 ∧
    (loadConfig (sampleEnviron "25x")).2 = none := by
  decide

end WebhookEmail
